import Mathlib

/-!
Shallow embedding of the core of `src/main.rs` (the `picturer` tool): the
`encode` function (payload → RGBA image buffer) and the `decode` function
(flattened RGBA channel buffer → payload).

Modelling conventions:
* Bytes are natural numbers; every byte the code writes is `< 256`.
* The zlib compressor and decompressor are black boxes (the spec scopes them
  out).  The compressor's outcome for the one payload handled by a call is
  passed to `encode` as an `Option (List Nat)` (`some c` = the collect of
  `ZlibEncoder` succeeded with bytes `c`, `none` = it failed); the
  decompressor is passed to `decode` as a function `List Nat → Option (List Nat)`.
* The target is 64-bit: `usize` holds every `u64` value, so
  `usize::try_from(u64)` never fails and `usize`/`u64` casts are lossless.
* `u32` multiplication is modelled with release semantics (wrap mod `2 ^ 32`).
* The PNG container is a lossless black box: the byte sequence that
  `image::open(..).pixels().flat_map(|(_, _, Rgba(c))| c)` recovers is exactly
  the row-major interleaved RGBA buffer the image was built from, i.e. the
  `data` field of `RgbaImage` below.
* A Rust panic (out-of-range slice index) is a distinct outcome, separate
  from the `bail!`/`?` error returns.
-/

set_option maxRecDepth 4000

namespace Picturer

/-- An RGBA image as built by `RgbaImage::from_vec(width, height, buf)`:
the flat row-major, channel-interleaved byte buffer together with the pixel
dimensions. -/
structure RgbaImage where
  width : Nat
  height : Nat
  data : List Nat
deriving DecidableEq

/-- Errors `encode` surfaces through `anyhow::Result`:
`lenOverflow` is the `TryFromIntError` from `u32::try_from(buf.len())?`;
`bufferTooSmall` is the `Error::msg("buffer too small")` raised when
`RgbaImage::from_vec` returns `None`. -/
inductive EncodeError
  | lenOverflow
  | bufferTooSmall
deriving DecidableEq

/-- Result of `encode`. -/
inductive EncodeResult
  | ok (img : RgbaImage)
  | err (e : EncodeError)
deriving DecidableEq

/-- Errors `decode` surfaces through `anyhow::Result`:
`emptyInput` is `bail!("input file is empty")`, `invalidHeader` is
`bail!("input file is invalid")` (fewer than 8 bytes after the flag byte),
`decompressionFailed` is the error propagated from `ZlibDecoder`. -/
inductive DecodeError
  | emptyInput
  | invalidHeader
  | decompressionFailed
deriving DecidableEq

/-- Result of `decode`.  `indexPanic` models the Rust panic raised by the
slice expression `&data[..length]` when `length > data.len()`: it is a crash,
not an error value returned to the caller. -/
inductive DecodeResult
  | ok (payload : List Nat)
  | err (e : DecodeError)
  | indexPanic
deriving DecidableEq

/-- The 8 little-endian bytes of `n` as a `u64`, i.e.
`(n as u64).to_le_bytes()` (`n` is a `usize` list length, hence `< 2 ^ 64`
on the 64-bit target, but the definition is total). -/
def u64le (n : Nat) : List Nat :=
  [n % 256, n / 2 ^ 8 % 256, n / 2 ^ 16 % 256, n / 2 ^ 24 % 256,
   n / 2 ^ 32 % 256, n / 2 ^ 40 % 256, n / 2 ^ 48 % 256, n / 2 ^ 56 % 256]

/-- Value of a little-endian byte list, i.e. `u64::from_le_bytes` on an
8-byte chunk. -/
def leVal (bs : List Nat) : Nat :=
  bs.foldr (fun b acc => b + 256 * acc) 0

/-- `Vec::resize(n, 0)`: truncate to `n` elements when the vector is longer,
extend with zeros when it is shorter. -/
def resize (l : List Nat) (n : Nat) : List Nat :=
  l.take n ++ List.replicate (n - l.length) 0

/-- Newton iteration for the integer square root, with explicit fuel so the
kernel can evaluate it (the iteration strictly decreases the guess, so fuel
`n` is never exhausted when started from guess `n / 2`). -/
def sqrtIter : Nat → Nat → Nat → Nat
  | 0, _, guess => guess
  | fuel + 1, n, guess =>
    let next := (guess + n / guess) / 2
    if next < guess then sqrtIter fuel n next else guess

/-- Floor of the square root of a natural number. -/
def floorSqrt (n : Nat) : Nat :=
  if n ≤ 1 then n else sqrtIter n n (n / 2)

/-- `f64::from(len).sqrt().ceil() as u32` for `len : u32`.  `f64::from(u32)`
is exact and the correctly rounded `f64` square root of an integer
`len < 2 ^ 32` is within `2 ^ -37` of the real value while the nearest
integer on the wrong side of it is at least `2 ^ -18` away, so taking the
ceiling in `f64` agrees with the integer ceiling square root on the whole
`u32` range; the cast back to `u32` never saturates since the result is at
most `2 ^ 16`. -/
def ceilSqrt (n : Nat) : Nat :=
  if floorSqrt n * floorSqrt n = n then floorSqrt n else floorSqrt n + 1

/-- `let w = ...sqrt().ceil() as u32` in `encode`, as a function of
`buf.len()`. -/
def solveW (len : Nat) : Nat := ceilSqrt len

/-- `let width = w + (4 - w % 4)` in `encode`, as a function of `buf.len()`.
When `w % 4 == 0` this adds the full 4. -/
def solveWidth (len : Nat) : Nat := solveW len + (4 - solveW len % 4)

/-- `let height = width / 4 - 1` in `encode`, as a function of `buf.len()`. -/
def solveHeight (len : Nat) : Nat := solveWidth len / 4 - 1

/-- The `match compressed { .. }` at the top of `encode`: on `Ok(c)` the
stored bytes are the compressor output and `is_compressed = true`; on
`Err(_)` the original payload is stored and `is_compressed = false` (the
`eprintln!` diagnostic is I/O and has no data effect). -/
def storedBytes (compressed : Option (List Nat)) (bytes : List Nat) :
    Bool × List Nat :=
  match compressed with
  | some c => (true, c)
  | none => (false, bytes)

/-- The frame built by `buf.push(is_compressed.into());
buf.extend((bytes.len() as u64).to_le_bytes()); buf.extend(bytes);`:
one flag byte, 8 little-endian length bytes, then the stored bytes. -/
def mkFrame (isCompressed : Bool) (stored : List Nat) : List Nat :=
  (if isCompressed then 1 else 0) :: (u64le stored.length ++ stored)

/-- The pre-pad buffer `buf` of `encode`, before the `resize`. -/
def preBuf (compressed : Option (List Nat)) (bytes : List Nat) : List Nat :=
  mkFrame (storedBytes compressed bytes).1 (storedBytes compressed bytes).2

/-- `fn encode(bytes: &[u8]) -> anyhow::Result<RgbaImage>` of `src/main.rs`,
with the compressor outcome made explicit.  `u32::try_from(buf.len())?`
surfaces `lenOverflow`; the `u32` product `width * height * 4` wraps
(release semantics); `RgbaImage::from_vec(w, h, v)` returns an image iff
`channels * w * h ≤ v.len()` (the `image` crate checks the expected length
with overflow-checked host-width arithmetic), otherwise
`Error::msg("buffer too small")` is surfaced. -/
def encode (compressed : Option (List Nat)) (bytes : List Nat) :
    EncodeResult :=
  let buf := preBuf compressed bytes
  if buf.length < 2 ^ 32 then
    let width := solveWidth buf.length
    let height := solveHeight buf.length
    let target := width * height * 4 % 2 ^ 32
    let padded := resize buf target
    if 4 * (width / 2) * (height * 2) ≤ padded.length then
      .ok ⟨width / 2, height * 2, padded⟩
    else
      .err .bufferTooSmall
  else
    .err .lenOverflow

/-- `fn decode(bytes: &[u8]) -> anyhow::Result<Vec<u8>>` of `src/main.rs`.
`bytes[0]` is read after the emptiness check; `bytes[1..].split_first_chunk()`
yields the 8-byte length chunk and the remaining data when at least 8 bytes
follow the flag; `usize::try_from(u64)` always succeeds on the 64-bit
target; `&data[..length]` panics when `length > data.len()`. -/
def decode (decompress : List Nat → Option (List Nat)) (bytes : List Nat) :
    DecodeResult :=
  if bytes.length = 0 then .err .emptyInput
  else
    let isCompressed := bytes.headI ≠ 0
    let rest := bytes.drop 1
    if 8 ≤ rest.length then
      let length := leVal (rest.take 8)
      let data := rest.drop 8
      if length ≤ data.length then
        let buf := data.take length
        if isCompressed then
          match decompress buf with
          | some out => .ok out
          | none => .err .decompressionFailed
        else .ok buf
      else .indexPanic
    else .err .invalidHeader

/-- Encode to an image, serialize through the lossless container, read the
pixels back in row-major channel order, and decode: `decode` applied to the
`data` buffer of the encoded image.  `none` when `encode` already failed. -/
def roundTrip (compressed : Option (List Nat))
    (decompress : List Nat → Option (List Nat)) (bytes : List Nat) :
    Option DecodeResult :=
  match encode compressed bytes with
  | .ok img => some (decode decompress img.data)
  | .err _ => none

/-- The 64-bit length field declared by a frame buffer. -/
def declaredLen (bytes : List Nat) : Nat := leVal ((bytes.drop 1).take 8)

/-! ### Helper lemmas -/

theorem resize_length (l : List Nat) (n : Nat) : (resize l n).length = n := by
  simp [resize, List.length_take]
  omega

theorem leVal_u64le (n : Nat) : leVal (u64le n) = n % 2 ^ 64 := by
  simp [u64le, leVal]
  omega

theorem u64le_lt (n : Nat) : ∀ b ∈ u64le n, b < 256 := by
  intro b hb
  simp [u64le] at hb
  rcases hb with rfl | rfl | rfl | rfl | rfl | rfl | rfl | rfl <;> omega

theorem solveWidth_mod_four (len : Nat) : solveWidth len % 4 = 0 := by
  unfold solveWidth
  omega

theorem preBuf_length (compressed : Option (List Nat)) (bytes : List Nat) :
    (preBuf compressed bytes).length
      = 9 + (storedBytes compressed bytes).2.length := by
  simp [preBuf, mkFrame, u64le]
  omega

/-- When the frame length fits `u32` and the `width * height * 4` product
does too, `encode` takes the success path and the padded buffer has exactly
the product as its length. -/
theorem encode_ok (compressed : Option (List Nat)) (bytes : List Nat)
    (h1 : (preBuf compressed bytes).length < 2 ^ 32)
    (h2 : solveWidth (preBuf compressed bytes).length
            * solveHeight (preBuf compressed bytes).length * 4 < 2 ^ 32) :
    encode compressed bytes =
      .ok ⟨solveWidth (preBuf compressed bytes).length / 2,
           solveHeight (preBuf compressed bytes).length * 2,
           resize (preBuf compressed bytes)
             (solveWidth (preBuf compressed bytes).length
               * solveHeight (preBuf compressed bytes).length * 4)⟩ := by
  set L := (preBuf compressed bytes).length with hL
  obtain ⟨k, hk⟩ : ∃ k, solveWidth L = 4 * k :=
    ⟨solveWidth L / 4, by have := solveWidth_mod_four L; omega⟩
  have hmod : solveWidth L * solveHeight L * 4 % 2 ^ 32
      = solveWidth L * solveHeight L * 4 := Nat.mod_eq_of_lt h2
  have hprod : 4 * (solveWidth L / 2) * (solveHeight L * 2)
      = solveWidth L * solveHeight L * 4 := by
    have h2k : solveWidth L / 2 = 2 * k := by omega
    rw [h2k, hk]
    ring
  have h1n := h1
  norm_num at h1n hmod
  simp [encode, ← hL, h1n, hprod, resize_length]
  rw [Nat.mod_eq_of_lt hmod]
  simp

/-- The reshape halves the width and doubles the height, so the reported
image needs exactly the `width * height * 4` bytes the padding targets
(`width` is always a multiple of 4). -/
theorem halfWidth_prod (len : Nat) :
    (solveWidth len / 2) * (solveHeight len * 2) * 4
      = solveWidth len * solveHeight len * 4 := by
  obtain ⟨k, hk⟩ : ∃ k, solveWidth len = 4 * k :=
    ⟨solveWidth len / 4, by have := solveWidth_mod_four len; omega⟩
  have h2k : solveWidth len / 2 = 2 * k := by omega
  rw [h2k, hk]
  ring

/-- When the frame fits `u32` but the `width * height * 4` product does not,
the wrapped `u32` product makes `resize` cut the buffer below the length
the reported image needs, so `RgbaImage::from_vec` returns `None` and
`encode` surfaces the buffer-too-small error. -/
theorem encode_overflow (compressed : Option (List Nat)) (bytes : List Nat)
    (h1 : (preBuf compressed bytes).length < 2 ^ 32)
    (h2 : 2 ^ 32 ≤ solveWidth (preBuf compressed bytes).length
            * solveHeight (preBuf compressed bytes).length * 4) :
    encode compressed bytes = .err .bufferTooSmall := by
  set L := (preBuf compressed bytes).length with hL
  obtain ⟨k, hk⟩ : ∃ k, solveWidth L = 4 * k :=
    ⟨solveWidth L / 4, by have := solveWidth_mod_four L; omega⟩
  have hprod : 4 * (solveWidth L / 2) * (solveHeight L * 2)
      = solveWidth L * solveHeight L * 4 := by
    have h2k : solveWidth L / 2 = 2 * k := by omega
    rw [h2k, hk]
    ring
  have hwrap : solveWidth L * solveHeight L * 4 % 2 ^ 32 < 2 ^ 32 :=
    Nat.mod_lt _ (by norm_num)
  have hcond : ¬ 4 * (solveWidth L / 2) * (solveHeight L * 2)
      ≤ (resize (preBuf compressed bytes)
          (solveWidth L * solveHeight L * 4 % 2 ^ 32)).length := by
    rw [resize_length, hprod]
    omega
  have h1n := h1
  norm_num at h1n hcond
  simp [encode, ← hL, h1n, hcond]

/-- When the frame length does not fit `u32`, `u32::try_from(buf.len())?`
surfaces the conversion error. -/
theorem encode_lenOverflow (compressed : Option (List Nat))
    (bytes : List Nat)
    (h1 : ¬ (preBuf compressed bytes).length < 2 ^ 32) :
    encode compressed bytes = .err .lenOverflow := by
  have h1n : ¬ (preBuf compressed bytes).length < 4294967296 := by
    norm_num at h1 ⊢
    omega
  simp [encode, h1n]

/-- Frame length for the fallback path on a payload of `n` identical
bytes. -/
theorem preBuf_none_replicate_length (n : Nat) :
    (preBuf none (List.replicate n 7)).length = 9 + n := by
  rw [preBuf_length]
  simp [storedBytes]

/-- Frame length when the compressor emits `n` identical bytes. -/
theorem preBuf_some_replicate_length (n : Nat) :
    (preBuf (some (List.replicate n 7)) []).length = 9 + n := by
  rw [preBuf_length]
  simp [storedBytes]

/-! ### Claim theorems -/

/-- Claim C4: for every payload, the pre-pad buffer built by encode is
exactly one flag byte (1 when the stored bytes are the compressor output,
0 when compression failed and the raw payload is stored), followed by 8
bytes holding the stored payload length as an unsigned 64-bit little-endian
integer (each byte below 256, and decoding them recovers the length), and
then the stored payload bytes verbatim. -/
theorem C4_frame_layout (compressed : Option (List Nat)) (bytes : List Nat) :
    preBuf compressed bytes =
      (if compressed.isSome then 1 else 0)
        :: (u64le (storedBytes compressed bytes).2.length
              ++ (storedBytes compressed bytes).2) ∧
    leVal (u64le (storedBytes compressed bytes).2.length)
      = (storedBytes compressed bytes).2.length % 2 ^ 64 ∧
    ∀ b ∈ u64le (storedBytes compressed bytes).2.length, b < 256 := by
  refine ⟨?_, leVal_u64le _, u64le_lt _⟩
  cases compressed <;> rfl

/-- Claim C7: decode on the empty buffer fails with the empty-input error,
and decode on any other buffer of fewer than 9 bytes fails with the
header-too-short (invalid input) error. -/
theorem C7_short_input_errors (decompress : List Nat → Option (List Nat))
    (bytes : List Nat) (h : bytes.length < 9) :
    decode decompress bytes =
      if bytes.length = 0 then .err .emptyInput else .err .invalidHeader := by
  by_cases h0 : bytes.length = 0
  · simp [decode, h0]
  · have h8 : ¬ 8 ≤ bytes.length - 1 := by omega
    simp [decode, h0, h8, List.length_drop]

/-- Witness for C7: the empty buffer yields the empty-input error and a
1-byte buffer yields the header-too-short error. -/
theorem C7_short_input_errors_witness :
    ([] : List Nat).length < 9 ∧ [(0 : Nat)].length < 9 ∧
    decode (fun _ => none) [] = .err .emptyInput ∧
    decode (fun _ => none) [0] = .err .invalidHeader := by
  refine ⟨by decide, by decide, ?_, ?_⟩
  · have h := C7_short_input_errors (fun _ => none) [] (by decide)
    simpa using h
  · have h := C7_short_input_errors (fun _ => none) [0] (by decide)
    simpa using h

/-- Claim C8: for the 14-byte pre-pad buffer with flag 0, little-endian
length 5 and payload [0, 1, 2, 3, 4] (produced when the compressor fails on
that payload), the dimension math gives w = 4, width = 8, height = 1, the
padding target is 8 * 1 * 4 = 32 bytes, and the emitted image is 4 x 2
pixels of 4 channels whose data is the frame followed by 18 zero bytes. -/
theorem C8_concrete_scenario :
    preBuf none [0, 1, 2, 3, 4] = [0, 5, 0, 0, 0, 0, 0, 0, 0, 0, 1, 2, 3, 4] ∧
    solveW 14 = 4 ∧ solveWidth 14 = 8 ∧ solveHeight 14 = 1 ∧
    solveWidth 14 * solveHeight 14 * 4 = 32 ∧
    encode none [0, 1, 2, 3, 4] =
      .ok ⟨4, 2, [0, 5, 0, 0, 0, 0, 0, 0, 0, 0, 1, 2, 3, 4]
                   ++ List.replicate 18 0⟩ := by
  decide

/-- Claim C2 fails on the code: at pre-pad buffer length 36 the dimension
math gives width 8 and height 1, whose byte capacity 8 * 1 * 4 = 32 is
smaller than 36, so the resize of an actual 36-byte frame (here from a
27-byte stored payload) keeps only its first 32 bytes, truncating 4 stored
payload bytes rather than only appending zero padding. -/
theorem C2_dimension_deficit_at_36 :
    (preBuf none (List.replicate 27 7)).length = 36 ∧
    solveWidth 36 = 8 ∧ solveHeight 36 = 1 ∧
    solveWidth 36 * solveHeight 36 * 4 = 32 ∧
    ¬ 36 ≤ solveWidth 36 * solveHeight 36 * 4 ∧
    resize (preBuf none (List.replicate 27 7))
        (solveWidth 36 * solveHeight 36 * 4 % 2 ^ 32)
      = (preBuf none (List.replicate 27 7)).take 32 := by
  decide

/-- Claim C3 fails on the code: on the 9-byte input whose header declares
length 1 while 0 bytes remain after the header, decode hits the
out-of-range slice of `&data[..length]` and panics instead of returning a
parse error to the caller. -/
theorem C3_truncated_length_panics :
    decode (fun _ => none) [0, 1, 0, 0, 0, 0, 0, 0, 0] = .indexPanic := by
  decide

/-- Claim C1 fails on the code: when the black-box compressor emits 27
bytes for a payload, the frame is 36 bytes and encode truncates it to 32
bytes, so decoding the encoded image panics (declared length 27 with only
23 bytes after the header) instead of recovering the payload: the
round trip is not the identity for every byte sequence. -/
theorem C1_roundtrip_fails_at_frame_36 :
    roundTrip (some (List.replicate 27 7)) (fun _ => none)
        (List.replicate 16 1) = some .indexPanic := by
  decide

/-- On a buffer that contains its whole declared payload, decode reduces to
slicing `declaredLen` bytes after the 9-byte header and dispatching on the
flag byte. -/
theorem decode_spec (decompress : List Nat → Option (List Nat))
    (b : List Nat) (h : 9 + declaredLen b ≤ b.length) :
    decode decompress b =
      if b.headI ≠ 0 then
        match decompress ((b.drop 9).take (declaredLen b)) with
        | some out => .ok out
        | none => .err .decompressionFailed
      else .ok ((b.drop 9).take (declaredLen b)) := by
  have h0 : ¬ b.length = 0 := by omega
  have h8 : 8 ≤ b.length - 1 := by omega
  have hdd : List.drop 8 b.tail = List.drop 9 b := by
    rw [← List.drop_one, List.drop_drop]
  have hlen : leVal (List.take 8 b.tail) ≤ b.length - 9 := by
    rw [← List.drop_one]
    show declaredLen b ≤ b.length - 9
    omega
  simp [decode, h0, h8, List.length_drop, hdd, declaredLen, hlen]

/-- Lists that agree on their first `n` elements (with `n` positive and the
first list nonempty) have the same `headI`. -/
theorem headI_eq_of_take {l1 l2 : List Nat} {n : Nat}
    (h : l1.take n = l2.take n) (hn : 0 < n) (hl : l1 ≠ []) :
    l1.headI = l2.headI := by
  cases l1 with
  | nil => exact absurd rfl hl
  | cons a t1 =>
    cases l2 with
    | nil =>
      obtain ⟨m, rfl⟩ : ∃ m, n = m + 1 := ⟨n - 1, by omega⟩
      simp [List.take_succ_cons] at h
    | cons b t2 =>
      obtain ⟨m, rfl⟩ : ∃ m, n = m + 1 := ⟨n - 1, by omega⟩
      simp [List.take_succ_cons] at h
      simp [h.1]

/-- Claim C5: whenever the pre-pad buffer length exceeds the u32 range, or
the computed `width * height * 4` product does, encode fails with a
surfaced error: the length conversion error in the first case, and in the
second the wrapped u32 product makes the resized buffer shorter than the
reported image needs, which the image constructor catches, so no wrapped
image is ever silently emitted. -/
theorem C5_range_errors_surfaced (compressed : Option (List Nat))
    (bytes : List Nat)
    (h : 2 ^ 32 ≤ (preBuf compressed bytes).length ∨
         2 ^ 32 ≤ solveWidth (preBuf compressed bytes).length
                    * solveHeight (preBuf compressed bytes).length * 4) :
    encode compressed bytes = .err .lenOverflow ∨
    encode compressed bytes = .err .bufferTooSmall := by
  by_cases h1 : (preBuf compressed bytes).length < 2 ^ 32
  · right
    refine encode_overflow compressed bytes h1 ?_
    rcases h with h | h
    · omega
    · exact h
  · left
    exact encode_lenOverflow compressed bytes h1

/-- Witness for C5: a frame of 4294967295 bytes (compressor output of
4294967286 bytes) is within u32 range but its dimension product
65540 * 16384 * 4 is not, and encode surfaces an error. -/
theorem C5_range_errors_surfaced_witness :
    (2 ^ 32 ≤ (preBuf (some (List.replicate 4294967286 7)) []).length ∨
     2 ^ 32 ≤ solveWidth (preBuf (some (List.replicate 4294967286 7)) []).length
                * solveHeight
                    (preBuf (some (List.replicate 4294967286 7)) []).length
                * 4) ∧
    (encode (some (List.replicate 4294967286 7)) [] = .err .lenOverflow ∨
     encode (some (List.replicate 4294967286 7)) [] =
       .err .bufferTooSmall) := by
  have hyp : 2 ^ 32 ≤ (preBuf (some (List.replicate 4294967286 7)) []).length ∨
      2 ^ 32 ≤ solveWidth (preBuf (some (List.replicate 4294967286 7)) []).length
                 * solveHeight
                     (preBuf (some (List.replicate 4294967286 7)) []).length
                 * 4 := by
    right
    rw [preBuf_some_replicate_length]
    decide
  exact ⟨hyp, C5_range_errors_surfaced _ _ hyp⟩

/-- Counterexample to C6 as stated: when the compressor fails on a payload
of 2 ^ 32 bytes, encode does not complete; it aborts with the length
conversion error, because the raw fallback frame no longer fits u32. -/
theorem C6_huge_payload_aborts :
    encode none (List.replicate (2 ^ 32) 7) = .err .lenOverflow := by
  refine encode_lenOverflow none _ ?_
  rw [preBuf_none_replicate_length]
  norm_num

/-- Claim C6, amended: when the compressor fails, encode stores the
original payload bytes unchanged with the compressed flag byte 0 and, for
every payload whose fallback frame and dimension product fit the u32 range
(the same bound any encode input faces), completes with an image instead of
aborting; the diagnostic print is an I/O effect outside the model. -/
theorem C6_compression_fallback (bytes : List Nat)
    (h1 : (preBuf none bytes).length < 2 ^ 32)
    (h2 : solveWidth (preBuf none bytes).length
            * solveHeight (preBuf none bytes).length * 4 < 2 ^ 32) :
    storedBytes none bytes = (false, bytes) ∧
    (preBuf none bytes).headI = 0 ∧
    ∃ img, encode none bytes = .ok img := by
  exact ⟨rfl, rfl, ⟨_, encode_ok none bytes h1 h2⟩⟩

/-- Witness for C6 at the payload [1, 2, 3]: the compressor-failure path
stores the raw bytes with flag 0 and encoding completes. -/
theorem C6_compression_fallback_witness :
    (preBuf none [1, 2, 3]).length < 2 ^ 32 ∧
    solveWidth (preBuf none [1, 2, 3]).length
      * solveHeight (preBuf none [1, 2, 3]).length * 4 < 2 ^ 32 ∧
    (storedBytes none [1, 2, 3] = (false, [1, 2, 3]) ∧
     (preBuf none [1, 2, 3]).headI = 0 ∧
     ∃ img, encode none [1, 2, 3] = .ok img) :=
  ⟨by decide, by decide, C6_compression_fallback [1, 2, 3] (by decide) (by decide)⟩

/-- Claim C9: decode reads only the flag byte, the 8 length bytes, and the
declared number of payload bytes after them; two buffers that agree on that
prefix and both contain all of it decode to the same result, so trailing
padding never influences the output. -/
theorem C9_padding_ignored (decompress : List Nat → Option (List Nat))
    (b1 b2 : List Nat)
    (hpre : b1.take (9 + declaredLen b1) = b2.take (9 + declaredLen b1))
    (hl1 : 9 + declaredLen b1 ≤ b1.length)
    (hl2 : 9 + declaredLen b1 ≤ b2.length) :
    decode decompress b1 = decode decompress b2 := by
  have h9 : b1.take 9 = b2.take 9 := by
    have h := congrArg (List.take 9) hpre
    rwa [List.take_take, List.take_take, Nat.min_eq_left (by omega)] at h
  have hchunk : (b1.drop 1).take 8 = (b2.drop 1).take 8 := by
    have h := congrArg (List.drop 1) h9
    rwa [List.drop_take, List.drop_take] at h
  have hdecl : declaredLen b1 = declaredLen b2 := congrArg leVal hchunk
  have hpay : (b1.drop 9).take (declaredLen b1)
      = (b2.drop 9).take (declaredLen b1) := by
    have h := congrArg (List.drop 9) hpre
    rw [List.drop_take, List.drop_take] at h
    simpa only [Nat.add_sub_cancel_left] using h
  have hhead : b1.headI = b2.headI :=
    headI_eq_of_take h9 (by omega) (List.length_pos.mp (by omega))
  rw [decode_spec decompress b1 hl1,
      decode_spec decompress b2 (hdecl ▸ hl2), hhead, hpay, hdecl]

/-- Witness for C9: a 10-byte frame with declared length 1 and the same
frame with an extra trailing padding byte decode identically. -/
theorem C9_padding_ignored_witness :
    [0, 1, 0, 0, 0, 0, 0, 0, 0, 7].take
        (9 + declaredLen [0, 1, 0, 0, 0, 0, 0, 0, 0, 7])
      = [0, 1, 0, 0, 0, 0, 0, 0, 0, 7, 99].take
          (9 + declaredLen [0, 1, 0, 0, 0, 0, 0, 0, 0, 7]) ∧
    9 + declaredLen [0, 1, 0, 0, 0, 0, 0, 0, 0, 7]
      ≤ ([0, 1, 0, 0, 0, 0, 0, 0, 0, 7] : List Nat).length ∧
    9 + declaredLen [0, 1, 0, 0, 0, 0, 0, 0, 0, 7]
      ≤ ([0, 1, 0, 0, 0, 0, 0, 0, 0, 7, 99] : List Nat).length ∧
    decode (fun _ => none) [0, 1, 0, 0, 0, 0, 0, 0, 0, 7]
      = decode (fun _ => none) [0, 1, 0, 0, 0, 0, 0, 0, 0, 7, 99] :=
  ⟨by decide, by decide, by decide,
   C9_padding_ignored (fun _ => none) _ _ (by decide) (by decide) (by decide)⟩

/-- Claim C10: whenever the computed `width * height * 4` product (and the
frame length feeding it) is within the u32 range, the buffer-too-small
branch is unreachable: the resized buffer's length equals
`(width / 2) * (height * 2) * 4` exactly and image construction succeeds. -/
theorem C10_construction_succeeds (compressed : Option (List Nat))
    (bytes : List Nat)
    (h1 : (preBuf compressed bytes).length < 2 ^ 32)
    (h2 : solveWidth (preBuf compressed bytes).length
            * solveHeight (preBuf compressed bytes).length * 4 < 2 ^ 32) :
    encode compressed bytes ≠ .err .bufferTooSmall ∧
    ∃ img, encode compressed bytes = .ok img ∧
      img.data.length
        = (solveWidth (preBuf compressed bytes).length / 2)
            * (solveHeight (preBuf compressed bytes).length * 2) * 4 := by
  have h := encode_ok compressed bytes h1 h2
  refine ⟨by rw [h]; simp, ⟨_, h, ?_⟩⟩
  simp only [resize_length]
  rw [halfWidth_prod]

/-- Witness for C10 at a 5-byte compressor output (14-byte frame): the
image is constructed and its buffer has exactly the reshaped capacity. -/
theorem C10_construction_succeeds_witness :
    (preBuf (some [9, 9, 9, 9, 9]) []).length < 2 ^ 32 ∧
    solveWidth (preBuf (some [9, 9, 9, 9, 9]) []).length
      * solveHeight (preBuf (some [9, 9, 9, 9, 9]) []).length * 4 < 2 ^ 32 ∧
    (encode (some [9, 9, 9, 9, 9]) [] ≠ .err .bufferTooSmall ∧
     ∃ img, encode (some [9, 9, 9, 9, 9]) [] = .ok img ∧
       img.data.length
         = (solveWidth (preBuf (some [9, 9, 9, 9, 9]) []).length / 2)
             * (solveHeight (preBuf (some [9, 9, 9, 9, 9]) []).length * 2)
             * 4) :=
  ⟨by decide, by decide,
   C10_construction_succeeds (some [9, 9, 9, 9, 9]) [] (by decide) (by decide)⟩

end Picturer
